import Mathlib

/-!
Shallow embedding of the dns-suite wire-format codec.

Source files embedded here:
  src/dns_parser/src/buffer.rs   (BytePacketBuffer and the qname codec)
  src/dns_core/src/types.rs      (QueryType, ResultCode)
  src/dns_core/src/header.rs     (DnsHeader read/write)
  src/dns_core/src/question.rs   (DnsQuestion write)
  src/dns_core/src/record.rs     (DnsRecord write)
  src/dns_core/src/packet.rs     (DnsPacket write)

Modelling conventions:
  - Rust `u8`/`u16`/`u32` values are Nat; every `as u8` / `as u16` cast in the
    source is modelled by an explicit `% 256` / `% 65536` at the same place.
  - `Result<T, Box<dyn Error>>` becomes `RRes T`; each distinct error message
    of the source gets one `RErr` constructor.  A Rust panic (an out-of-range
    array index such as `self.buffer[pos]` with `pos ≥ 512`) is modelled by
    the separate outcome `RRes.panicked`, since it is not an `Err` return.
  - Rust `String`s are byte lists (`List Nat`).  `domain.split(".")` is
    `List.splitOn 46` on the byte list, which agrees with Rust's split on '.'
    for UTF-8 input because byte 46 never occurs inside a multi-byte
    character.  `String::from_utf8_lossy(..).to_lowercase()` is modelled by
    the per-byte map `lowerByte` (ASCII lowercasing); the theorems below only
    depend on this map being a function of the raw bytes.
  - The `read_qname` loop is given explicit fuel (structural recursion).  The
    Rust loop terminates on every input because the walking position strictly
    increases between label steps and at most 6 pointer jumps are taken, so
    4096 steps are never exhausted on the runs characterised below; fuel
    exhaustion is mapped to the unreachable outcome `RRes.panicked`.
-/

/-- Error tags for the distinct error messages of the source. -/
inductive RErr where
  /-- "End of buffer reached" -/
  | endOfBuffer
  /-- "Single label exceeds 63 characters of length" -/
  | labelTooLong
  /-- "Name reading jump limit reached" -/
  | jumpLimit
  /-- "TXT record length exceeds rdata" -/
  | txtOverrun
deriving DecidableEq

/-- Outcome of a fallible operation: `Ok`, `Err`, or a Rust panic. -/
inductive RRes (α : Type) where
  | ok : α → RRes α
  | err : RErr → RRes α
  | panicked : RRes α
deriving DecidableEq

def RRes.bind : RRes α → (α → RRes β) → RRes β
  | .ok a, f => f a
  | .err e, _ => .err e
  | .panicked, _ => .panicked

instance : Monad RRes where
  pure := .ok
  bind := RRes.bind

/-- The packet buffer of src/dns_parser/src/buffer.rs: `buffer: [u8; 512]`
plus a cursor.  The 512-byte array is a `List Nat`; all operations built
below preserve its length. -/
structure BytePacketBuffer where
  buffer : List Nat
  position : Nat
deriving DecidableEq

namespace BytePacketBuffer

/-- `BytePacketBuffer::new()`: 512 zero bytes, cursor 0. -/
def new : BytePacketBuffer := ⟨List.replicate 512 0, 0⟩

/-- `set(pos, val)`: `self.buffer[pos] = val` with NO bounds check of its
own — an index `pos ≥ 512` is a Rust panic, not an `Err`. -/
def set (b : BytePacketBuffer) (pos val : Nat) : RRes BytePacketBuffer :=
  if pos < 512 then .ok ⟨b.buffer.set pos (val % 256), b.position⟩ else .panicked

/-- `set_u16(pos, val)`: big-endian in-place overwrite via two `set`s. -/
def set_u16 (b : BytePacketBuffer) (p val : Nat) : RRes BytePacketBuffer := do
  let b1 ← b.set p (val >>> 8)
  b1.set (p + 1) (val &&& 0xFF)

/-- `pos()`. -/
def pos (b : BytePacketBuffer) : Nat := b.position

/-- `write(val)`: bounds-checks the cursor, stores at the cursor, advances. -/
def write (b : BytePacketBuffer) (val : Nat) : RRes BytePacketBuffer :=
  if 512 ≤ b.position then .err .endOfBuffer
  else .ok ⟨b.buffer.set b.position (val % 256), b.position + 1⟩

/-- `write_u8(val)`. -/
def write_u8 (b : BytePacketBuffer) (val : Nat) : RRes BytePacketBuffer :=
  b.write val

/-- `write_u16(val)`: big-endian. -/
def write_u16 (b : BytePacketBuffer) (val : Nat) : RRes BytePacketBuffer := do
  let b1 ← b.write (val >>> 8)
  b1.write (val &&& 0xff)

/-- `write_u32(val)`: big-endian. -/
def write_u32 (b : BytePacketBuffer) (val : Nat) : RRes BytePacketBuffer := do
  let b1 ← b.write ((val >>> 24) &&& 0xff)
  let b2 ← b1.write ((val >>> 16) &&& 0xff)
  let b3 ← b2.write ((val >>> 8) &&& 0xff)
  b3.write (val &&& 0xff)

/-- `read()`: bounds-checks the cursor, reads at the cursor, advances. -/
def read (b : BytePacketBuffer) : RRes (Nat × BytePacketBuffer) :=
  if 512 ≤ b.position then .err .endOfBuffer
  else .ok (b.buffer.getD b.position 0, ⟨b.buffer, b.position + 1⟩)

/-- `get(pos)`: the source checks `self.position >= 512` — the CURSOR, not
`pos` — and then indexes `self.buffer[pos]`, which panics when `pos ≥ 512`. -/
def get (b : BytePacketBuffer) (p : Nat) : RRes Nat :=
  if 512 ≤ b.position then .err .endOfBuffer
  else if p < 512 then .ok (b.buffer.getD p 0) else .panicked

/-- `step(steps)`: unchecked cursor advance. -/
def step (b : BytePacketBuffer) (steps : Nat) : BytePacketBuffer :=
  { b with position := b.position + steps }

/-- `seek(pos)`: unchecked cursor set. -/
def seek (b : BytePacketBuffer) (p : Nat) : BytePacketBuffer :=
  { b with position := p }

/-- `get_range(start, end)`: computes `len = start + end`, errors when
`len >= 512`, else returns `&buffer[start..len]` — the `end` bytes starting
at `start`. -/
def get_range (b : BytePacketBuffer) (start end_ : Nat) : RRes (List Nat) :=
  if 512 ≤ start + end_ then .err .endOfBuffer
  else .ok ((b.buffer.drop start).take end_)

/-- `read_u16()`. -/
def read_u16 (b : BytePacketBuffer) : RRes (Nat × BytePacketBuffer) := do
  let (a, b1) ← b.read
  let (c, b2) ← b1.read
  pure ((a <<< 8) ||| c, b2)

/-- `read_u32()`. -/
def read_u32 (b : BytePacketBuffer) : RRes (Nat × BytePacketBuffer) := do
  let (x1, b1) ← b.read
  let (x2, b2) ← b1.read
  let (x3, b3) ← b2.read
  let (x4, b4) ← b3.read
  pure ((x1 <<< 24) ||| (x2 <<< 16) ||| (x3 <<< 8) ||| x4, b4)

/-- The inner `for char_byte in label.as_bytes()` loop of `write_qname` (and
the byte loops of `DnsRecord::write`): one `write_u8` per byte. -/
def writeBytes (b : BytePacketBuffer) : List Nat → RRes BytePacketBuffer
  | [] => .ok b
  | x :: xs => do
    let b1 ← b.write_u8 x
    writeBytes b1 xs

/-- The `for label in domain.split(".")` loop of `write_qname`: for EVERY
label (empty ones included) check `len > 0x3f`, write the length byte, then
the label bytes. -/
def writeLabels (b : BytePacketBuffer) : List (List Nat) → RRes BytePacketBuffer
  | [] => .ok b
  | l :: rest =>
    if 63 < l.length then .err .labelTooLong
    else do
      let b1 ← b.write_u8 l.length
      let b2 ← writeBytes b1 l
      writeLabels b2 rest

/-- `write_qname(domain)`: split on '.', emit each label, terminate with 0. -/
def write_qname (b : BytePacketBuffer) (domain : List Nat) : RRes BytePacketBuffer := do
  let b1 ← writeLabels b (domain.splitOn 46)
  b1.write_u8 0

/-- ASCII lowercasing of one byte, the byte-level model of the source's
`String::from_utf8_lossy(..).to_lowercase()`. -/
def lowerByte (c : Nat) : Nat := if 65 ≤ c ∧ c ≤ 90 then c + 32 else c

/-- The `loop` of `read_qname`, with fuel.  Arguments mirror the source's
local state: walking position `p`, `jumps_performed`, `jumped`, `delimiter`,
and the output string accumulated so far. -/
def read_qname_loop : Nat → BytePacketBuffer → Nat → Nat → Bool → List Nat →
    List Nat → RRes (List Nat × BytePacketBuffer)
  | 0, _, _, _, _, _, _ => .panicked
  | fuel + 1, b, p, jumps, jumped, delim, acc =>
    if 5 < jumps then .err .jumpLimit
    else
      match b.get p with
      | .err e => .err e
      | .panicked => .panicked
      | .ok length_byte =>
        if length_byte &&& 0xC0 == 0xC0 then
          let b1 := if jumped then b else b.seek (p + 2)
          match b1.get (p + 1) with
          | .err e => .err e
          | .panicked => .panicked
          | .ok byte_2nd =>
            read_qname_loop fuel b1 (((length_byte ^^^ 0xC0) <<< 8) ||| byte_2nd)
              (jumps + 1) true delim acc
        else
          if length_byte == 0 then .ok (acc, if jumped then b else b.seek (p + 1))
          else
            match b.get_range (p + 1) length_byte with
            | .err e => .err e
            | .panicked => .panicked
            | .ok str_buffer =>
              read_qname_loop fuel b (p + 1 + length_byte) jumps jumped [46]
                (acc ++ delim ++ str_buffer.map lowerByte)

/-- `read_qname(out)`: run the loop from the cursor; returns the decoded
name together with the final buffer. -/
def read_qname (b : BytePacketBuffer) : RRes (List Nat × BytePacketBuffer) :=
  read_qname_loop 4096 b b.position 0 false [] []

end BytePacketBuffer

/-- Fresh all-zero buffer, as produced by `BytePacketBuffer::new()`. -/
def freshBuf : BytePacketBuffer := BytePacketBuffer.new

/-- `QueryType` of src/dns_core/src/types.rs. -/
inductive QueryType where
  | UNKNOWN (x : Nat)
  | A | NS | CNAME | SOA | PTR | HINFO | MINFO | MX | TXT | RP | AFSDB
  | X25 | ISDN | RT | NSAP | NSAP_PTR | SIG | KEY | PX | AAAA | LOC | SRV
  | NAPTR | KX | CERT | DNAME | OPT | APL | DS | SSHFP | IPSECKEY | RRSIG
  | NSEC | DNSKEY | DHCID | NSEC3 | NSEC3PARAM | TLSA | SMIMEA | HIP | CDS
  | CDNSKEY | OPENPGPKEY | CSYNC | ZONEMD | SVCB | HTTPS | SPF | NID | L32
  | L64 | LP | EUI48 | EUI64 | TKEY | TSIG | IXFR | AXFR | ANY | URI | CAA
  | AVC | DOA | AMTRELAY | TA | DLV

/-- `QueryType::to_num`. -/
def QueryType.to_num : QueryType → Nat
  | .UNKNOWN x => x
  | .A => 1
  | .NS => 2
  | .CNAME => 5
  | .SOA => 6
  | .PTR => 12
  | .HINFO => 13
  | .MINFO => 14
  | .MX => 15
  | .TXT => 16
  | .RP => 17
  | .AFSDB => 18
  | .X25 => 19
  | .ISDN => 20
  | .RT => 21
  | .NSAP => 22
  | .NSAP_PTR => 23
  | .SIG => 24
  | .KEY => 25
  | .PX => 26
  | .AAAA => 28
  | .LOC => 29
  | .SRV => 33
  | .NAPTR => 35
  | .KX => 36
  | .CERT => 37
  | .DNAME => 39
  | .OPT => 41
  | .APL => 42
  | .DS => 43
  | .SSHFP => 44
  | .IPSECKEY => 45
  | .RRSIG => 46
  | .NSEC => 47
  | .DNSKEY => 48
  | .DHCID => 49
  | .NSEC3 => 50
  | .NSEC3PARAM => 51
  | .TLSA => 52
  | .SMIMEA => 53
  | .HIP => 55
  | .CDS => 59
  | .CDNSKEY => 60
  | .OPENPGPKEY => 61
  | .CSYNC => 62
  | .ZONEMD => 63
  | .SVCB => 64
  | .HTTPS => 65
  | .SPF => 99
  | .NID => 104
  | .L32 => 105
  | .L64 => 106
  | .LP => 107
  | .EUI48 => 108
  | .EUI64 => 109
  | .TKEY => 249
  | .TSIG => 250
  | .IXFR => 251
  | .AXFR => 252
  | .ANY => 255
  | .URI => 256
  | .CAA => 257
  | .AVC => 258
  | .DOA => 259
  | .AMTRELAY => 260
  | .TA => 32768
  | .DLV => 32769

/-- `QueryType::from_num`. -/
def QueryType.from_num (num : Nat) : QueryType :=
  match num with
  | 1 => .A
  | 2 => .NS
  | 5 => .CNAME
  | 6 => .SOA
  | 12 => .PTR
  | 13 => .HINFO
  | 14 => .MINFO
  | 15 => .MX
  | 16 => .TXT
  | 17 => .RP
  | 18 => .AFSDB
  | 19 => .X25
  | 20 => .ISDN
  | 21 => .RT
  | 22 => .NSAP
  | 23 => .NSAP_PTR
  | 24 => .SIG
  | 25 => .KEY
  | 26 => .PX
  | 28 => .AAAA
  | 29 => .LOC
  | 33 => .SRV
  | 35 => .NAPTR
  | 36 => .KX
  | 37 => .CERT
  | 39 => .DNAME
  | 41 => .OPT
  | 42 => .APL
  | 43 => .DS
  | 44 => .SSHFP
  | 45 => .IPSECKEY
  | 46 => .RRSIG
  | 47 => .NSEC
  | 48 => .DNSKEY
  | 49 => .DHCID
  | 50 => .NSEC3
  | 51 => .NSEC3PARAM
  | 52 => .TLSA
  | 53 => .SMIMEA
  | 55 => .HIP
  | 59 => .CDS
  | 60 => .CDNSKEY
  | 61 => .OPENPGPKEY
  | 62 => .CSYNC
  | 63 => .ZONEMD
  | 64 => .SVCB
  | 65 => .HTTPS
  | 99 => .SPF
  | 104 => .NID
  | 105 => .L32
  | 106 => .L64
  | 107 => .LP
  | 108 => .EUI48
  | 109 => .EUI64
  | 249 => .TKEY
  | 250 => .TSIG
  | 251 => .IXFR
  | 252 => .AXFR
  | 255 => .ANY
  | 256 => .URI
  | 257 => .CAA
  | 258 => .AVC
  | 259 => .DOA
  | 260 => .AMTRELAY
  | 32768 => .TA
  | 32769 => .DLV
  | _ => .UNKNOWN num

/-- `ResultCode` of src/dns_core/src/types.rs. -/
inductive ResultCode where
  | NOERROR | FORMERR | SERVFAIL | NXDOMAIN | NOTIMP | REFUSED
deriving DecidableEq

/-- The discriminant of `ResultCode` (`self.rescode as u8`). -/
def ResultCode.to_num : ResultCode → Nat
  | .NOERROR => 0
  | .FORMERR => 1
  | .SERVFAIL => 2
  | .NXDOMAIN => 3
  | .NOTIMP => 4
  | .REFUSED => 5

/-- `ResultCode::from_num`: out-of-set values decode to NOERROR. -/
def ResultCode.from_num (num : Nat) : ResultCode :=
  match num with
  | 1 => .FORMERR
  | 2 => .SERVFAIL
  | 3 => .NXDOMAIN
  | 4 => .NOTIMP
  | 5 => .REFUSED
  | _ => .NOERROR

/-- Rust `bool as u8`. -/
def boolByte (x : Bool) : Nat := if x then 1 else 0

/-- `DnsHeader` of src/dns_core/src/header.rs. -/
structure DnsHeader where
  id : Nat
  recursion_desired : Bool
  truncated_message : Bool
  authoritative_answer : Bool
  opcode : Nat
  response : Bool
  rescode : ResultCode
  checking_disabled : Bool
  authed_data : Bool
  z : Bool
  recursion_available : Bool
  questions : Nat
  answers : Nat
  authoritative_entries : Nat
  resource_entries : Nat
deriving DecidableEq

/-- `DnsHeader::new()`. -/
def DnsHeader.new : DnsHeader :=
  { id := 0, recursion_desired := false, truncated_message := false,
    authoritative_answer := false, opcode := 0, response := false,
    rescode := .NOERROR, checking_disabled := false, authed_data := false,
    z := false, recursion_available := false, questions := 0, answers := 0,
    authoritative_entries := 0, resource_entries := 0 }

/-- `DnsHeader::write`. -/
def DnsHeader.write (h : DnsHeader) (b : BytePacketBuffer) : RRes BytePacketBuffer := do
  let b1 ← b.write_u16 h.id
  let b2 ← b1.write_u8
    (boolByte h.recursion_desired |||
      (boolByte h.truncated_message <<< 1) |||
      (boolByte h.authoritative_answer <<< 2) |||
      ((h.opcode <<< 3) % 256) |||
      (boolByte h.response <<< 7))
  let b3 ← b2.write_u8
    (h.rescode.to_num |||
      (boolByte h.recursion_available <<< 7) |||
      (boolByte h.z <<< 6) |||
      (boolByte h.authed_data <<< 5) |||
      (boolByte h.checking_disabled <<< 4))
  let b4 ← b3.write_u16 h.questions
  let b5 ← b4.write_u16 h.answers
  let b6 ← b5.write_u16 h.authoritative_entries
  b6.write_u16 h.resource_entries

/-- `DnsHeader::read` (the `&mut self` receiver is overwritten field by
field; every field is assigned, so the result depends only on the buffer). -/
def DnsHeader.read (_self : DnsHeader) (b : BytePacketBuffer) :
    RRes (DnsHeader × BytePacketBuffer) := do
  let (i, b1) ← b.read_u16
  let (a, b2) ← b1.read
  let (bb, b3) ← b2.read
  let (q, b4) ← b3.read_u16
  let (an, b5) ← b4.read_u16
  let (auth, b6) ← b5.read_u16
  let (res, b7) ← b6.read_u16
  pure
    ({ id := i,
       recursion_desired := (a &&& (1 <<< 0)) != 0,
       truncated_message := (a &&& (1 <<< 1)) != 0,
       authoritative_answer := (a &&& (1 <<< 2)) != 0,
       opcode := (a >>> 3) &&& 0x0f,
       response := (a &&& (1 <<< 7)) != 0,
       rescode := ResultCode.from_num (bb &&& 0x0f),
       checking_disabled := (bb &&& (1 <<< 4)) != 0,
       authed_data := (bb &&& (1 <<< 5)) != 0,
       z := (bb &&& (1 <<< 6)) != 0,
       recursion_available := (bb &&& (1 <<< 7)) != 0,
       questions := q, answers := an,
       authoritative_entries := auth, resource_entries := res }, b7)

/-- `DnsQuestion` of src/dns_core/src/question.rs. -/
structure DnsQuestion where
  name : List Nat
  qtype : QueryType

/-- `DnsQuestion::write`: qname, qtype, class = 1. -/
def DnsQuestion.write (q : DnsQuestion) (b : BytePacketBuffer) : RRes BytePacketBuffer := do
  let b1 ← b.write_qname q.name
  let b2 ← b1.write_u16 q.qtype.to_num
  b2.write_u16 1

/-- Rust `std::net::Ipv4Addr`: four octets. -/
structure Ipv4Addr where
  o0 : Nat
  o1 : Nat
  o2 : Nat
  o3 : Nat

/-- `ip.octets()`. -/
def Ipv4Addr.octets (ip : Ipv4Addr) : List Nat := [ip.o0, ip.o1, ip.o2, ip.o3]

/-- Rust `std::net::Ipv6Addr`: eight 16-bit segments. -/
structure Ipv6Addr where
  g0 : Nat
  g1 : Nat
  g2 : Nat
  g3 : Nat
  g4 : Nat
  g5 : Nat
  g6 : Nat
  g7 : Nat

/-- `DnsRecord` of src/dns_core/src/record.rs. -/
inductive DnsRecord where
  | UNKNOWN (domain : List Nat) (qtype : QueryType) (class_ : Nat) (ttl : Nat)
      (data : List Nat)
  | A (domain : List Nat) (class_ : Nat) (ttl : Nat) (addr : Ipv4Addr)
  | NS (domain : List Nat) (class_ : Nat) (host : List Nat) (ttl : Nat)
  | CNAME (domain : List Nat) (class_ : Nat) (host : List Nat) (ttl : Nat)
  | MX (domain : List Nat) (priority : Nat) (class_ : Nat) (host : List Nat)
      (ttl : Nat)
  | TXT (domain : List Nat) (class_ : Nat) (ttl : Nat) (data : List (List Nat))
  | SOA (domain : List Nat) (class_ : Nat) (ttl : Nat) (mname : List Nat)
      (rname : List Nat) (serial : Nat) (refresh : Nat) (retry : Nat)
      (expire : Nat) (minimum : Nat)
  | PTR (domain : List Nat) (class_ : Nat) (host : List Nat) (ttl : Nat)
  | AAAA (domain : List Nat) (addr : Ipv6Addr) (class_ : Nat) (ttl : Nat)

/-- The record's owning domain name. -/
def DnsRecord.rdomain : DnsRecord → List Nat
  | .UNKNOWN d .. => d
  | .A d .. => d
  | .NS d .. => d
  | .CNAME d .. => d
  | .MX d .. => d
  | .TXT d .. => d
  | .SOA d .. => d
  | .PTR d .. => d
  | .AAAA d .. => d

/-- The numeric type code each `DnsRecord::write` arm emits. -/
def DnsRecord.rtypeNum : DnsRecord → Nat
  | .UNKNOWN _ qtype .. => qtype.to_num
  | .A .. => QueryType.A.to_num
  | .NS .. => QueryType.NS.to_num
  | .CNAME .. => QueryType.CNAME.to_num
  | .MX .. => QueryType.MX.to_num
  | .TXT .. => QueryType.TXT.to_num
  | .SOA .. => QueryType.SOA.to_num
  | .PTR .. => QueryType.PTR.to_num
  | .AAAA .. => QueryType.AAAA.to_num

/-- The record's class field. -/
def DnsRecord.rclass : DnsRecord → Nat
  | .UNKNOWN _ _ c .. => c
  | .A _ c .. => c
  | .NS _ c .. => c
  | .CNAME _ c .. => c
  | .MX _ _ c .. => c
  | .TXT _ c .. => c
  | .SOA _ c .. => c
  | .PTR _ c .. => c
  | .AAAA _ _ c .. => c

/-- The record's ttl field. -/
def DnsRecord.rttl : DnsRecord → Nat
  | .UNKNOWN _ _ _ t _ => t
  | .A _ _ t _ => t
  | .NS _ _ _ t => t
  | .CNAME _ _ _ t => t
  | .MX _ _ _ _ t => t
  | .TXT _ _ t _ => t
  | .SOA _ _ t .. => t
  | .PTR _ _ _ t => t
  | .AAAA _ _ _ t => t

/-- The four writes every `DnsRecord::write` arm begins with (domain qname,
type, class, ttl) — identical op sequence in every arm of the source. -/
def writePreamble (b : BytePacketBuffer) (domain : List Nat)
    (tnum class_ ttl : Nat) : RRes BytePacketBuffer := do
  let b1 ← b.write_qname domain
  let b2 ← b1.write_u16 tnum
  let b3 ← b2.write_u16 class_
  b3.write_u32 ttl

/-- The rdata writes of the SOA arm, in source order: two qnames then the
five `u32` fields. -/
def writeSOArdata (b : BytePacketBuffer) (mname rname : List Nat)
    (serial refresh retry expire minimum : Nat) : RRes BytePacketBuffer := do
  let b1 ← b.write_qname mname
  let b2 ← b1.write_qname rname
  let b3 ← b2.write_u32 serial
  let b4 ← b3.write_u32 refresh
  let b5 ← b4.write_u32 retry
  let b6 ← b5.write_u32 expire
  b6.write_u32 minimum

/-- The rdata writes of the MX arm, in source order: priority then the
exchanger qname. -/
def writeMXrdata (b : BytePacketBuffer) (priority : Nat) (host : List Nat) :
    RRes BytePacketBuffer := do
  let b1 ← b.write_u16 priority
  b1.write_qname host

/-- The rdata writes of the AAAA arm, in source order: the eight 16-bit
segments of the address. -/
def writeAAAArdata (b : BytePacketBuffer) (addr : Ipv6Addr) : RRes BytePacketBuffer := do
  let b1 ← b.write_u16 addr.g0
  let b2 ← b1.write_u16 addr.g1
  let b3 ← b2.write_u16 addr.g2
  let b4 ← b3.write_u16 addr.g3
  let b5 ← b4.write_u16 addr.g4
  let b6 ← b5.write_u16 addr.g5
  let b7 ← b6.write_u16 addr.g6
  b7.write_u16 addr.g7

/-- The `for txt in data.iter()` loop of the TXT arm: length byte (`as u8`)
then the character-string bytes. -/
def writeTxts (b : BytePacketBuffer) : List (List Nat) → RRes BytePacketBuffer
  | [] => .ok b
  | t :: ts => do
    let b1 ← b.write_u8 t.length
    let b2 ← BytePacketBuffer.writeBytes b1 t
    writeTxts b2 ts

/-- `DnsRecord::write`: returns `buffer.pos() - start_pos` and the buffer. -/
def DnsRecord.write (r : DnsRecord) (b : BytePacketBuffer) :
    RRes (Nat × BytePacketBuffer) :=
  let start_pos := b.pos
  match r with
  | .A domain class_ ttl ip => do
    let b1 ← writePreamble b domain QueryType.A.to_num class_ ttl
    let b2 ← b1.write_u16 (ip.octets.length % 65536)
    let b3 ← BytePacketBuffer.writeBytes b2 ip.octets
    pure (b3.pos - start_pos, b3)
  | .NS domain class_ host ttl => do
    let b1 ← writePreamble b domain QueryType.NS.to_num class_ ttl
    let rdlength_pos := b1.pos
    let b2 ← b1.write_u16 0
    let rdata_start := b2.pos
    let b3 ← b2.write_qname host
    let rdata_len := (b3.pos - rdata_start) % 65536
    let b4 ← b3.set_u16 rdlength_pos rdata_len
    pure (b4.pos - start_pos, b4)
  | .SOA domain class_ ttl mname rname serial refresh retry expire minimum => do
    let b1 ← writePreamble b domain QueryType.SOA.to_num class_ ttl
    let rdlength_pos := b1.pos
    let b2 ← b1.write_u16 0
    let rdata_start := b2.pos
    let b3 ← writeSOArdata b2 mname rname serial refresh retry expire minimum
    let rdata_len := (b3.pos - rdata_start) % 65536
    let b4 ← b3.set_u16 rdlength_pos rdata_len
    pure (b4.pos - start_pos, b4)
  | .CNAME domain class_ host ttl => do
    let b1 ← writePreamble b domain QueryType.CNAME.to_num class_ ttl
    let p := b1.pos
    let b2 ← b1.write_u16 0
    let b3 ← b2.write_qname host
    let size := (b3.pos - (p + 2)) % 65536
    let b4 ← b3.set_u16 p size
    pure (b4.pos - start_pos, b4)
  | .MX domain priority class_ host ttl => do
    let b1 ← writePreamble b domain QueryType.MX.to_num class_ ttl
    let p := b1.pos
    let b2 ← b1.write_u16 0
    let b3 ← writeMXrdata b2 priority host
    let size := (b3.pos - (p + 2)) % 65536
    let b4 ← b3.set_u16 p size
    pure (b4.pos - start_pos, b4)
  | .PTR domain class_ host ttl => do
    let b1 ← writePreamble b domain QueryType.PTR.to_num class_ ttl
    let rdlength_pos := b1.pos
    let b2 ← b1.write_u16 0
    let rdata_start := b2.pos
    let b3 ← b2.write_qname host
    let rdata_len := (b3.pos - rdata_start) % 65536
    let b4 ← b3.set_u16 rdlength_pos rdata_len
    pure (b4.pos - start_pos, b4)
  | .TXT domain class_ ttl data => do
    let b1 ← writePreamble b domain QueryType.TXT.to_num class_ ttl
    let rdlength_pos := b1.pos
    let b2 ← b1.write_u16 0
    let rdata_start := b2.pos
    let b3 ← writeTxts b2 data
    let rdata_len := (b3.pos - rdata_start) % 65536
    let b4 ← b3.set_u16 rdlength_pos rdata_len
    pure (b4.pos - start_pos, b4)
  | .AAAA domain addr class_ ttl => do
    let b1 ← writePreamble b domain QueryType.AAAA.to_num class_ ttl
    let b2 ← b1.write_u16 16
    let b3 ← writeAAAArdata b2 addr
    pure (b3.pos - start_pos, b3)
  | .UNKNOWN domain qtype class_ ttl data => do
    let b1 ← writePreamble b domain qtype.to_num class_ ttl
    let b2 ← b1.write_u16 (data.length % 65536)
    let b3 ← BytePacketBuffer.writeBytes b2 data
    pure (b3.pos - start_pos, b3)

/-- Cursor position right after the preamble of `DnsRecord::write` — the
rdlength slot of the encoding (for the variable-length arms this is the
position remembered for back-patching; for A/AAAA/UNKNOWN it is where the
explicit rdlength is written). -/
def rdlengthSlot (r : DnsRecord) (b : BytePacketBuffer) : Option Nat :=
  match writePreamble b r.rdomain r.rtypeNum r.rclass r.rttl with
  | .ok b1 => some b1.position
  | _ => none

/-- `DnsPacket` of src/dns_core/src/packet.rs. -/
structure DnsPacket where
  header : DnsHeader
  questions : List DnsQuestion
  answers : List DnsRecord
  authorities : List DnsRecord
  resources : List DnsRecord

/-- The `for question in &self.questions` loop of `DnsPacket::write`. -/
def writeQuestions : List DnsQuestion → BytePacketBuffer → RRes BytePacketBuffer
  | [], b => .ok b
  | q :: qs, b => do
    let b1 ← q.write b
    writeQuestions qs b1

/-- The record-list loops of `DnsPacket::write` (the returned size of each
`DnsRecord::write` is dropped, as in the source). -/
def writeRecords : List DnsRecord → BytePacketBuffer → RRes BytePacketBuffer
  | [], b => .ok b
  | r :: rs, b => do
    let (_, b1) ← r.write b
    writeRecords rs b1

/-- `DnsPacket::write`: first overwrites the four header counts from the
list lengths (each `len() as u16`), then emits header and sections.  The
mutated packet is returned alongside the buffer outcome, mirroring the
`&mut self` receiver, so the count mutation is visible even when the
buffer writes fail. -/
def DnsPacket.write (p : DnsPacket) (b : BytePacketBuffer) :
    DnsPacket × RRes BytePacketBuffer :=
  let p' : DnsPacket :=
    { p with
      header :=
        { p.header with
          questions := p.questions.length % 65536,
          answers := p.answers.length % 65536,
          authoritative_entries := p.authorities.length % 65536,
          resource_entries := p.resources.length % 65536 } }
  (p', do
    let b1 ← p'.header.write b
    let b2 ← writeQuestions p'.questions b1
    let b3 ← writeRecords p'.answers b2
    let b4 ← writeRecords p'.authorities b3
    writeRecords p'.resources b4)

/-- The bytes stored at positions `[start, start + n)` of the buffer array
(each position read with `getD`, default 0; always exactly `n` entries). -/
def bufBytes (b : BytePacketBuffer) : Nat → Nat → List Nat
  | _, 0 => []
  | start, n + 1 => b.buffer.getD start 0 :: bufBytes b (start + 1) n

/-- The big-endian 16-bit value stored at positions `p`, `p + 1` of a byte
array. -/
def storedU16 (d : List Nat) (p : Nat) : Nat :=
  d.getD p 0 * 256 + d.getD (p + 1) 0

/-- The label section of a qname wire encoding: for each label its length
byte followed by its bytes (no terminator). -/
def wireLabels : List (List Nat) → List Nat
  | [] => []
  | l :: rest => (l.length :: l) ++ wireLabels rest

/-- The full qname wire encoding: labels then the zero terminator. -/
def labelsWire (ls : List (List Nat)) : List Nat := wireLabels ls ++ [0]

/-- Well-formed label list of an uncompressed name: every label has length
1..63 and all its bytes are genuine `u8` values. -/
def labelsOk (ls : List (List Nat)) : Prop :=
  ∀ l ∈ ls, (1 ≤ l.length ∧ l.length ≤ 63) ∧ ∀ c ∈ l, c < 256

instance labelsOk.dec (ls : List (List Nat)) : Decidable (labelsOk ls) := by
  unfold labelsOk; exact inferInstance

/-- The buffer holds the wire encoding of the labels `ls` as a well-formed
uncompressed name starting at `start`, entirely inside the 512 bytes. -/
def wfNameAt (b : BytePacketBuffer) (start : Nat) (ls : List (List Nat)) : Prop :=
  labelsOk ls ∧ start + (labelsWire ls).length ≤ 512 ∧
    b.buffer.length = 512 ∧ bufBytes b start (labelsWire ls).length = labelsWire ls

instance wfNameAt.dec (b : BytePacketBuffer) (start : Nat) (ls : List (List Nat)) :
    Decidable (wfNameAt b start ls) := by
  unfold wfNameAt; exact inferInstance

/-- The string `read_qname` produces for the labels `ls`: lowercased labels
joined with '.' (byte 46). -/
def decodedName (ls : List (List Nat)) : List Nat :=
  List.intercalate [46] (ls.map (fun l => l.map BytePacketBuffer.lowerByte))

/-- The output string after the `read_qname` loop consumes the labels `ls`,
given the text accumulated so far and the pending delimiter. -/
def appendName (acc delim : List Nat) (ls : List (List Nat)) : List Nat :=
  match ls with
  | [] => acc
  | _ => acc ++ delim ++ decodedName ls

/-- Store the bytes of a list into an array starting at position `p` (each
truncated to a `u8`, as the buffer's `write` does). -/
def setBytes : List Nat → Nat → List Nat → List Nat
  | d, _, [] => d
  | d, p, x :: xs => setBytes (d.set p (x % 256)) (p + 1) xs

/-- The buffer after appending `bs` at the cursor: bytes stored from the
cursor on, cursor advanced by `bs.length`. -/
def appendBytes (b : BytePacketBuffer) (bs : List Nat) : BytePacketBuffer :=
  ⟨setBytes b.buffer b.position bs, b.position + bs.length⟩

/-- Cursor of a successful buffer outcome (9999 on error/panic, so that a
successful run is distinguishable). -/
def posOf : RRes BytePacketBuffer → Nat
  | .ok b => b.position
  | _ => 9999

/-- Buffer of a successful buffer outcome (fresh buffer on error/panic). -/
def bufOf : RRes BytePacketBuffer → BytePacketBuffer
  | .ok b => b
  | _ => freshBuf

/-- Size component of a successful `DnsRecord::write` outcome. -/
def resultSize : RRes (Nat × BytePacketBuffer) → Nat
  | .ok (n, _) => n
  | _ => 0

/-- Buffer component of a successful `DnsRecord::write` outcome. -/
def resultBuf : RRes (Nat × BytePacketBuffer) → BytePacketBuffer
  | .ok (_, b) => b
  | _ => freshBuf

/-- `f` is a cursor-append buffer operation: on success it only moves the
cursor forward, keeps the array length, stays within 512 when it started
within 512, and never changes bytes strictly below the starting cursor. -/
def StepOk (f : BytePacketBuffer → RRes BytePacketBuffer) : Prop :=
  ∀ b b', f b = .ok b' →
    b.position ≤ b'.position ∧ b'.buffer.length = b.buffer.length ∧
      (b.position ≤ 512 → b'.position ≤ 512) ∧
      ∀ i, i < b.position → b'.buffer.getD i 0 = b.buffer.getD i 0

/-- Buffer whose bytes 0-1 are `C0 00`: a compression pointer to itself. -/
def ptrSelfBuf : BytePacketBuffer := ⟨(List.replicate 512 0).set 0 192, 0⟩

/-- Buffer holding the name `a.b` (`01 61 01 62 00`) at offset 0. -/
def nameBuf : BytePacketBuffer :=
  ⟨((((List.replicate 512 0).set 0 1).set 1 97).set 2 1).set 3 98, 0⟩

/-- Buffer holding the name `ab` (`02 61 62 00`) at offset 0 and, at offset
4, the pointer `C0 00` targeting offset 0. -/
def c6Buf : BytePacketBuffer :=
  ⟨((((List.replicate 512 0).set 0 2).set 1 97).set 2 98).set 4 192, 0⟩

/-- Buffer holding the name `a` (`01 61 00`) at offset 0 and, at offsets
510-511, the pointer `C0 00` targeting offset 0; cursor parked at 510. -/
def c6CexBuf : BytePacketBuffer :=
  ⟨(((List.replicate 512 0).set 0 1).set 1 97).set 510 192, 510⟩

/-- The header of scenario S1: id=0xABCD, all flags set, opcode=2,
rcode=SERVFAIL, counts (3,2,1,4). -/
def hdrS1 : DnsHeader :=
  { id := 0xABCD, recursion_desired := true, truncated_message := true,
    authoritative_answer := true, opcode := 2, response := true,
    rescode := .SERVFAIL, checking_disabled := true, authed_data := true,
    z := true, recursion_available := true, questions := 3, answers := 2,
    authoritative_entries := 1, resource_entries := 4 }

/-- A concrete A record (domain `x`, class IN, ttl 60, 192.0.2.1). -/
def recA0 : DnsRecord := .A [120] 1 60 ⟨192, 0, 2, 1⟩

/-- An empty packet with nonzero stale header counts, to exercise the
count-overwriting of `DnsPacket::write`. -/
def pkt0 : DnsPacket :=
  { header := { DnsHeader.new with questions := 7, answers := 9 },
    questions := [⟨[97], .A⟩], answers := [], authorities := [], resources := [] }

/-- The `Bind.bind` of the `Monad RRes` instance is `RRes.bind`. -/
theorem RRes.monadBind_eq {α β : Type} :
    (Bind.bind : RRes α → (α → RRes β) → RRes β) = RRes.bind := rfl

/-- The `pure` of the `Monad RRes` instance is `RRes.ok`. -/
theorem RRes.monadPure_eq {α : Type} : (pure : α → RRes α) = RRes.ok := rfl

/-- A bind returns `ok` exactly when both steps do. -/
theorem RRes.bind_eq_ok {x : RRes α} {f : α → RRes β} {v : β} :
    RRes.bind x f = .ok v ↔ ∃ a, x = .ok a ∧ f a = .ok v := by
  cases x <;> simp [RRes.bind]

/-- Masking with 0xFF is reduction mod 256. -/
theorem and255_eq_mod (v : Nat) : v &&& 255 = v % 256 := by
  have h := Nat.and_pow_two_sub_one_eq_mod v 8
  norm_num at h
  exact h

/-- Shifting right by 8 is division by 256. -/
theorem shr8_eq_div (v : Nat) : v >>> 8 = v / 256 := by
  have h := Nat.shiftRight_eq_div_pow v 8
  norm_num at h
  exact h

/-- A qname length byte (≤ 63) never looks like a compression pointer. -/
theorem label_not_pointer : ∀ L, L < 64 → ((L &&& 192 == 192) = false) := by decide

/-- A pointer first byte `C0 | hi` with `hi ≤ 1` is detected as a pointer,
and xoring the mask back off recovers `hi`. -/
theorem pointer_byte_facts :
    ∀ h, h < 2 → (((192 ||| h) &&& 192 == 192) = true) ∧ ((192 ||| h) ^^^ 192 = h) := by
  decide

set_option maxRecDepth 4000 in
/-- Reassembling an offset below 512 from its pointer bytes. -/
theorem pointer_recompose : ∀ N, N < 512 → ((N >>> 8) <<< 8) ||| (N % 256) = N := by
  decide

/-- `bufBytes` always returns exactly `n` bytes. -/
theorem bufBytes_length (b : BytePacketBuffer) (s n : Nat) :
    (bufBytes b s n).length = n := by
  induction n generalizing s with
  | zero => rfl
  | succ n ih => simp [bufBytes, ih]

/-- `bufBytes` splits over an addition of lengths. -/
theorem bufBytes_append (b : BytePacketBuffer) (s m k : Nat) :
    bufBytes b s (m + k) = bufBytes b s m ++ bufBytes b (s + m) k := by
  induction m generalizing s with
  | zero => simp [bufBytes]
  | succ m ih =>
    have h1 : m + 1 + k = (m + k) + 1 := by omega
    rw [h1]
    simp only [bufBytes, ih (s + 1)]
    have h2 : s + 1 + m = s + (m + 1) := by omega
    simp [h2]

/-- Within the array, a take-of-drop slice is `bufBytes`. -/
theorem take_drop_eq_bufBytes (b : BytePacketBuffer) (s n : Nat)
    (h : s + n ≤ b.buffer.length) :
    (b.buffer.drop s).take n = bufBytes b s n := by
  induction n generalizing s with
  | zero => rfl
  | succ n ih =>
    have hs : s < b.buffer.length := by omega
    rw [List.drop_eq_getElem_cons hs]
    simp only [List.take_succ_cons, bufBytes]
    congr 1
    · simp [List.getD_eq_getElem?_getD, List.getElem?_eq_getElem hs]
    · exact ih (s + 1) (by omega)

/-- Reading one byte out of a `bufBytes` slice. -/
theorem bufBytes_one (b : BytePacketBuffer) (s : Nat) :
    bufBytes b s 1 = [b.buffer.getD s 0] := rfl

/-- `write` succeeds exactly below 512, storing the truncated byte at the
cursor and advancing it. -/
theorem write_ok_iff {b b' : BytePacketBuffer} {v : Nat} :
    b.write v = .ok b' ↔
      b.position < 512 ∧ b' = ⟨b.buffer.set b.position (v % 256), b.position + 1⟩ := by
  unfold BytePacketBuffer.write
  split
  · constructor
    · intro h; cases h
    · intro ⟨h1, _⟩; omega
  · rename_i h
    constructor
    · intro he
      refine ⟨by omega, ?_⟩
      cases he; rfl
    · intro ⟨_, h2⟩
      rw [h2]

/-- Success shape of `write_u16`: two bytes stored at the cursor. -/
theorem write_u16_ok {b b' : BytePacketBuffer} {v : Nat}
    (h : b.write_u16 v = .ok b') :
    b.position + 1 < 512 ∧ b'.position = b.position + 2 ∧
      b'.buffer = (b.buffer.set b.position ((v >>> 8) % 256)).set
        (b.position + 1) ((v &&& 0xff) % 256) ∧
      b'.buffer.length = b.buffer.length := by
  unfold BytePacketBuffer.write_u16 at h
  rw [RRes.monadBind_eq, RRes.bind_eq_ok] at h
  obtain ⟨b1, h1, h2⟩ := h
  obtain ⟨hp1, he1⟩ := write_ok_iff.mp h1
  obtain ⟨hp2, he2⟩ := write_ok_iff.mp h2
  subst he1
  subst he2
  refine ⟨by simp at hp2; omega, by simp, by simp, by simp⟩

/-- `set_u16` at a patch position below 511 always succeeds, overwriting the
two target bytes and leaving the cursor alone. -/
theorem set_u16_succ {b : BytePacketBuffer} {p v : Nat} (hp : p + 1 < 512) :
    b.set_u16 p v =
      .ok ⟨(b.buffer.set p ((v >>> 8) % 256)).set (p + 1) ((v &&& 0xFF) % 256),
        b.position⟩ := by
  unfold BytePacketBuffer.set_u16 BytePacketBuffer.set
  rw [if_pos (by omega)]
  rw [RRes.monadBind_eq]
  simp only [RRes.bind]
  rw [if_pos (by omega)]

/-- Characterization of a successful `set_u16`. -/
theorem set_u16_ok {b b' : BytePacketBuffer} {p v : Nat} (hp : p + 1 < 512)
    (h : b.set_u16 p v = .ok b') :
    b'.position = b.position ∧
      b'.buffer = (b.buffer.set p ((v >>> 8) % 256)).set (p + 1) ((v &&& 0xFF) % 256) := by
  rw [set_u16_succ hp] at h
  cases h
  exact ⟨rfl, rfl⟩

/-- Binding two cursor-append operations is a cursor-append operation. -/
theorem StepOk.bind {f g : BytePacketBuffer → RRes BytePacketBuffer}
    (hf : StepOk f) (hg : StepOk g) : StepOk (fun b => RRes.bind (f b) g) := by
  intro b b' h
  rw [RRes.bind_eq_ok] at h
  obtain ⟨b1, h1, h2⟩ := h
  obtain ⟨p1, l1, q1, r1⟩ := hf b b1 h1
  obtain ⟨p2, l2, q2, r2⟩ := hg b1 b' h2
  refine ⟨le_trans p1 p2, by rw [l2, l1], fun hb => q2 (q1 hb), fun i hi => ?_⟩
  rw [r2 i (lt_of_lt_of_le hi p1), r1 i hi]

/-- `write` is a cursor-append operation. -/
theorem stepOk_write (v : Nat) : StepOk (fun b => b.write v) := by
  intro b b' h
  obtain ⟨hp, he⟩ := write_ok_iff.mp h
  subst he
  refine ⟨by simp, by simp, by simp; omega, fun i hi => ?_⟩
  simp [List.getD_eq_getElem?_getD, List.getElem?_set_ne (show b.position ≠ i by omega)]

/-- `write_u8` is a cursor-append operation. -/
theorem stepOk_write_u8 (v : Nat) : StepOk (fun b => b.write_u8 v) :=
  stepOk_write v

/-- `write_u16` is a cursor-append operation. -/
theorem stepOk_write_u16 (v : Nat) : StepOk (fun b => b.write_u16 v) :=
  StepOk.bind (stepOk_write _) (stepOk_write _)

/-- `write_u32` is a cursor-append operation. -/
theorem stepOk_write_u32 (v : Nat) : StepOk (fun b => b.write_u32 v) :=
  StepOk.bind (stepOk_write _)
    (StepOk.bind (stepOk_write _) (StepOk.bind (stepOk_write _) (stepOk_write _)))

/-- `writeBytes` is a cursor-append operation. -/
theorem stepOk_writeBytes (l : List Nat) :
    StepOk (fun b => BytePacketBuffer.writeBytes b l) := by
  induction l with
  | nil =>
    intro b b' h
    simp only [BytePacketBuffer.writeBytes, RRes.ok.injEq] at h
    subst h
    exact ⟨le_refl _, rfl, fun x => x, fun _ _ => rfl⟩
  | cons x xs ih => exact StepOk.bind (stepOk_write _) ih

/-- `writeLabels` is a cursor-append operation. -/
theorem stepOk_writeLabels (ls : List (List Nat)) :
    StepOk (fun b => BytePacketBuffer.writeLabels b ls) := by
  induction ls with
  | nil =>
    intro b b' h
    simp only [BytePacketBuffer.writeLabels, RRes.ok.injEq] at h
    subst h
    exact ⟨le_refl _, rfl, fun x => x, fun _ _ => rfl⟩
  | cons l rest ih =>
    intro b b' h
    simp only [BytePacketBuffer.writeLabels] at h
    by_cases h63 : 63 < l.length
    · rw [if_pos h63] at h; cases h
    · rw [if_neg h63] at h
      exact (StepOk.bind (stepOk_write _) (StepOk.bind (stepOk_writeBytes _) ih)) b b' h

/-- `write_qname` is a cursor-append operation. -/
theorem stepOk_write_qname (d : List Nat) : StepOk (fun b => b.write_qname d) :=
  StepOk.bind (stepOk_writeLabels _) (stepOk_write _)

/-- `writeTxts` is a cursor-append operation. -/
theorem stepOk_writeTxts (ts : List (List Nat)) :
    StepOk (fun b => writeTxts b ts) := by
  induction ts with
  | nil =>
    intro b b' h
    simp only [writeTxts, RRes.ok.injEq] at h
    subst h
    exact ⟨le_refl _, rfl, fun x => x, fun _ _ => rfl⟩
  | cons t ts ih =>
    exact StepOk.bind (stepOk_write _) (StepOk.bind (stepOk_writeBytes _) ih)

/-- `writePreamble` is a cursor-append operation. -/
theorem stepOk_writePreamble (d : List Nat) (t c l : Nat) :
    StepOk (fun b => writePreamble b d t c l) :=
  StepOk.bind (stepOk_write_qname _)
    (StepOk.bind (stepOk_write_u16 _) (StepOk.bind (stepOk_write_u16 _) (stepOk_write_u32 _)))

/-- `writeBytes` advances the cursor by exactly the number of bytes. -/
theorem writeBytes_ok_pos {l : List Nat} {b b' : BytePacketBuffer}
    (h : BytePacketBuffer.writeBytes b l = .ok b') :
    b'.position = b.position + l.length := by
  induction l generalizing b with
  | nil =>
    simp only [BytePacketBuffer.writeBytes, RRes.ok.injEq] at h
    subst h; simp
  | cons x xs ih =>
    have h' : RRes.bind (b.write_u8 x) (fun b1 => BytePacketBuffer.writeBytes b1 xs) = .ok b' := h
    rw [RRes.bind_eq_ok] at h'
    obtain ⟨b1, h1, h2⟩ := h'
    obtain ⟨_, he⟩ := write_ok_iff.mp h1
    subst he
    have := ih h2
    simp at this
    simp [this]
    omega

/-- Appending nothing is the identity. -/
theorem appendBytes_nil (b : BytePacketBuffer) : appendBytes b [] = b := rfl

/-- Peeling one byte off an append. -/
theorem appendBytes_cons (b : BytePacketBuffer) (x : Nat) (xs : List Nat) :
    appendBytes b (x :: xs) =
      appendBytes ⟨b.buffer.set b.position (x % 256), b.position + 1⟩ xs := by
  simp only [appendBytes, setBytes, BytePacketBuffer.mk.injEq, List.length_cons,
    true_and]
  omega

/-- `setBytes` splits over list append. -/
theorem setBytes_append (u v : List Nat) :
    ∀ (d : List Nat) (p : Nat), setBytes d p (u ++ v) = setBytes (setBytes d p u) (p + u.length) v := by
  induction u with
  | nil => intro d p; simp [setBytes]
  | cons x xs ih =>
    intro d p
    show setBytes (d.set p (x % 256)) (p + 1) (xs ++ v) =
      setBytes (setBytes (d.set p (x % 256)) (p + 1) xs) (p + (xs.length + 1)) v
    rw [ih]
    have hpp : p + 1 + xs.length = p + (xs.length + 1) := by omega
    rw [hpp]

/-- `appendBytes` splits over list append. -/
theorem appendBytes_append (b : BytePacketBuffer) (u v : List Nat) :
    appendBytes b (u ++ v) = appendBytes (appendBytes b u) v := by
  simp only [appendBytes, setBytes_append, BytePacketBuffer.mk.injEq,
    List.length_append, true_and]
  omega

/-- When the bytes fit, `writeBytes` is exactly an append at the cursor. -/
theorem writeBytes_eq_appendBytes (l : List Nat) {b : BytePacketBuffer}
    (h : b.position + l.length ≤ 512) :
    BytePacketBuffer.writeBytes b l = .ok (appendBytes b l) := by
  induction l generalizing b with
  | nil => simp [BytePacketBuffer.writeBytes, appendBytes_nil]
  | cons x xs ih =>
    have hw : b.write_u8 x = .ok ⟨b.buffer.set b.position (x % 256), b.position + 1⟩ :=
      write_ok_iff.mpr ⟨by simp at h; omega, rfl⟩
    have hstep : BytePacketBuffer.writeBytes b (x :: xs) =
        RRes.bind (b.write_u8 x) (fun b1 => BytePacketBuffer.writeBytes b1 xs) := rfl
    rw [hstep, hw]
    simp only [RRes.bind]
    rw [ih (by simp at h ⊢; omega)]
    rw [appendBytes_cons]

/-- Length of the label-section wire bytes of a cons. -/
theorem wireLabels_cons_length (l : List Nat) (rest : List (List Nat)) :
    (wireLabels (l :: rest)).length = 1 + l.length + (wireLabels rest).length := by
  simp [wireLabels]
  omega

/-- The full wire is one byte (terminator) longer than the label section. -/
theorem labelsWire_length (ls : List (List Nat)) :
    (labelsWire ls).length = (wireLabels ls).length + 1 := by
  simp [labelsWire]

/-- When every label is short enough and the bytes fit, the label loop of
`write_qname` appends exactly the label-section wire bytes. -/
theorem writeLabels_ok (ls : List (List Nat)) :
    ∀ {b : BytePacketBuffer}, (∀ l ∈ ls, l.length ≤ 63) →
      b.position + (wireLabels ls).length ≤ 512 →
      BytePacketBuffer.writeLabels b ls = .ok (appendBytes b (wireLabels ls)) := by
  induction ls with
  | nil =>
    intro b _ _
    simp [BytePacketBuffer.writeLabels, wireLabels, appendBytes_nil]
  | cons l rest ih =>
    intro b h63 hfit
    have hl : l.length ≤ 63 := (h63 l (List.mem_cons_self l rest))
    have hlen := wireLabels_cons_length l rest
    simp only [BytePacketBuffer.writeLabels]
    rw [if_neg (by omega)]
    have hw : b.write_u8 l.length =
        .ok ⟨b.buffer.set b.position (l.length % 256), b.position + 1⟩ :=
      write_ok_iff.mpr ⟨by omega, rfl⟩
    rw [RRes.monadBind_eq, hw]
    simp only [RRes.bind]
    rw [writeBytes_eq_appendBytes l (by simp; omega)]
    simp only [RRes.bind]
    have e1 : (⟨b.buffer.set b.position (l.length % 256), b.position + 1⟩ :
        BytePacketBuffer) = appendBytes b [l.length] := by
      simp [appendBytes, setBytes]
    have hx := ih (b := appendBytes (appendBytes b [l.length]) l)
      (fun l' hl' => h63 l' (List.mem_cons_of_mem _ hl'))
      (by simp [appendBytes]; omega)
    rw [e1, hx, ← appendBytes_append, ← appendBytes_append]
    rfl

/-- When the bytes fit but some label is over 63 bytes, the label loop of
`write_qname` fails with the label-length error. -/
theorem writeLabels_err (ls : List (List Nat)) :
    ∀ {b : BytePacketBuffer}, b.position + (wireLabels ls).length ≤ 512 →
      (∃ l ∈ ls, 63 < l.length) →
      BytePacketBuffer.writeLabels b ls = .err .labelTooLong := by
  induction ls with
  | nil => intro b _ h; simp at h
  | cons l rest ih =>
    intro b hfit hlong
    have hlen := wireLabels_cons_length l rest
    simp only [BytePacketBuffer.writeLabels]
    by_cases hl : 63 < l.length
    · rw [if_pos hl]
    · rw [if_neg hl]
      obtain ⟨l', hl', hlen'⟩ := hlong
      have hrest : ∃ x ∈ rest, 63 < x.length := by
        rcases List.mem_cons.mp hl' with h | h
        · exact absurd (h ▸ hlen') hl
        · exact ⟨l', h, hlen'⟩
      have hw : b.write_u8 l.length =
          .ok ⟨b.buffer.set b.position (l.length % 256), b.position + 1⟩ :=
        write_ok_iff.mpr ⟨by omega, rfl⟩
      rw [RRes.monadBind_eq, hw]
      simp only [RRes.bind]
      rw [writeBytes_eq_appendBytes l (by simp; omega)]
      simp only [RRes.bind]
      exact ih (by simp [appendBytes]; omega) hrest

/-- Success characterization of `write_qname`: the split labels are emitted
(length byte then bytes, empty labels included) followed by the zero
terminator. -/
theorem write_qname_ok (d : List Nat) {b : BytePacketBuffer}
    (h63 : ∀ l ∈ d.splitOn 46, l.length ≤ 63)
    (hfit : b.position + (labelsWire (d.splitOn 46)).length ≤ 512) :
    b.write_qname d = .ok (appendBytes b (labelsWire (d.splitOn 46))) := by
  have hlen := labelsWire_length (d.splitOn 46)
  show RRes.bind (BytePacketBuffer.writeLabels b (d.splitOn 46))
    (fun b1 => b1.write_u8 0) = _
  rw [writeLabels_ok (d.splitOn 46) h63 (by omega)]
  simp only [RRes.bind]
  have hw : (appendBytes b (wireLabels (d.splitOn 46))).write_u8 0 =
      .ok ⟨(appendBytes b (wireLabels (d.splitOn 46))).buffer.set
        (appendBytes b (wireLabels (d.splitOn 46))).position (0 % 256),
        (appendBytes b (wireLabels (d.splitOn 46))).position + 1⟩ :=
    write_ok_iff.mpr ⟨by simp [appendBytes]; omega, rfl⟩
  rw [hw]
  have e1 : (⟨(appendBytes b (wireLabels (d.splitOn 46))).buffer.set
      (appendBytes b (wireLabels (d.splitOn 46))).position (0 % 256),
      (appendBytes b (wireLabels (d.splitOn 46))).position + 1⟩ :
      BytePacketBuffer) = appendBytes (appendBytes b (wireLabels (d.splitOn 46))) [0] := by
    simp [appendBytes, setBytes]
  rw [e1, ← appendBytes_append]
  rfl

/-- Error characterization of `write_qname`: an over-long label among the
split labels yields the label-length error (whenever the wire would fit, so
that the cursor does not hit the end first). -/
theorem write_qname_err (d : List Nat) {b : BytePacketBuffer}
    (hfit : b.position + (labelsWire (d.splitOn 46)).length ≤ 512)
    (hlong : ∃ l ∈ d.splitOn 46, 63 < l.length) :
    b.write_qname d = .err .labelTooLong := by
  have hlen := labelsWire_length (d.splitOn 46)
  show RRes.bind (BytePacketBuffer.writeLabels b (d.splitOn 46))
    (fun b1 => b1.write_u8 0) = _
  rw [writeLabels_err (d.splitOn 46) (by omega) hlong]
  rfl

/-- Decoding no labels gives the empty (root) name. -/
theorem decodedName_nil : decodedName [] = [] := rfl

/-- Decoding a single label lowercases it. -/
theorem decodedName_single (l : List Nat) :
    decodedName [l] = l.map BytePacketBuffer.lowerByte := by
  simp [decodedName, List.intercalate]

/-- Decoding two or more labels puts a dot after the first. -/
theorem decodedName_cons2 (l m : List Nat) (rest : List (List Nat)) :
    decodedName (l :: m :: rest) =
      l.map BytePacketBuffer.lowerByte ++ [46] ++ decodedName (m :: rest) := by
  simp [decodedName, List.intercalate]

/-- Consuming one label folds it into the accumulator with the pending
delimiter; the next delimiter is the dot. -/
theorem appendName_cons (acc delim l : List Nat) (ls : List (List Nat)) :
    appendName acc delim (l :: ls) =
      appendName (acc ++ delim ++ l.map BytePacketBuffer.lowerByte) [46] ls := by
  cases ls with
  | nil => simp [appendName, decodedName_single]
  | cons m rest => simp [appendName, decodedName_cons2]

/-- Starting from an empty accumulator the loop output is the decoded name. -/
theorem appendName_empty (ls : List (List Nat)) :
    appendName [] [] ls = decodedName ls := by
  cases ls with
  | nil => rfl
  | cons l rest => simp [appendName]

/-- Running the `read_qname` loop over a well-formed uncompressed name at
`start`: it succeeds with the decoded labels appended to the accumulator,
and (unless a jump already happened) seeks to just past the terminator.
This is the shared engine behind the uncompressed-read and
pointer-equivalence results. -/
theorem read_loop_wf (ls : List (List Nat)) :
    ∀ (fuel : Nat) (b : BytePacketBuffer) (start jumps : Nat) (jumped : Bool)
      (delim acc : List Nat),
      wfNameAt b start ls → ls.length < fuel → jumps ≤ 5 → b.position < 512 →
      BytePacketBuffer.read_qname_loop fuel b start jumps jumped delim acc =
        .ok (appendName acc delim ls,
          if jumped then b else b.seek (start + (labelsWire ls).length)) := by
  induction ls with
  | nil =>
    intro fuel b start jumps jumped delim acc hwf hfuel hj hb
    obtain ⟨_, hle, _, hbytes⟩ := hwf
    obtain ⟨f, rfl⟩ : ∃ f, fuel = f + 1 := ⟨fuel - 1, by omega⟩
    have hlen1 : (labelsWire ([] : List (List Nat))).length = 1 := rfl
    rw [hlen1] at hle
    have hstart : b.buffer.getD start 0 = 0 := by
      rw [hlen1] at hbytes
      simpa [bufBytes, labelsWire, wireLabels] using hbytes
    simp only [BytePacketBuffer.read_qname_loop]
    rw [if_neg (by omega)]
    have hget : b.get start = .ok 0 := by
      unfold BytePacketBuffer.get
      rw [if_neg (by omega), if_pos (by omega), hstart]
    rw [hget]
    simp [appendName, labelsWire, wireLabels]
  | cons l rest ih =>
    intro fuel b start jumps jumped delim acc hwf hfuel hj hb
    obtain ⟨hok, hle, hblen, hbytes⟩ := hwf
    obtain ⟨f, rfl⟩ : ∃ f, fuel = f + 1 := ⟨fuel - 1, by omega⟩
    have hokl := hok l (List.mem_cons_self _ _)
    have hL1 : 1 ≤ l.length := hokl.1.1
    have hL63 : l.length ≤ 63 := hokl.1.2
    have hwire : labelsWire (l :: rest) = ([l.length] ++ l) ++ labelsWire rest := by
      simp [labelsWire, wireLabels]
    have hRlen : (labelsWire rest).length = (wireLabels rest).length + 1 :=
      labelsWire_length rest
    have hwlen : (labelsWire (l :: rest)).length =
        1 + l.length + (labelsWire rest).length := by
      rw [hwire]; simp; omega
    -- split the wire bytes of the buffer into length byte, label, tail
    rw [hwlen] at hbytes
    have e1 : 1 + l.length + (labelsWire rest).length =
        1 + (l.length + (labelsWire rest).length) := by omega
    rw [e1, bufBytes_append b start 1 (l.length + (labelsWire rest).length),
      bufBytes_append b (start + 1) l.length ((labelsWire rest).length)] at hbytes
    rw [hwire] at hbytes
    rw [bufBytes_one] at hbytes
    have hrhs : [l.length] ++ l ++ labelsWire rest = l.length :: (l ++ labelsWire rest) := by
      simp
    rw [hrhs] at hbytes
    simp only [List.singleton_append, List.cons.injEq] at hbytes
    obtain ⟨hhead, hbc⟩ := hbytes
    obtain ⟨hlab, htail⟩ := List.append_inj hbc (by rw [bufBytes_length])
    -- one step of the loop
    simp only [BytePacketBuffer.read_qname_loop]
    rw [if_neg (show ¬ 5 < jumps by omega)]
    have hstartlt : start < 512 := by omega
    have hget : b.get start = .ok l.length := by
      unfold BytePacketBuffer.get
      rw [if_neg (by omega), if_pos hstartlt, hhead]
    rw [hget]
    dsimp only
    rw [if_neg (show ¬((l.length &&& 0xC0 == 0xC0) = true) by
      simp [label_not_pointer l.length (by omega)])]
    rw [if_neg (show ¬((l.length == 0) = true) by
      intro hcon
      rw [beq_iff_eq] at hcon
      omega)]
    have hrange : b.get_range (start + 1) l.length = .ok l := by
      unfold BytePacketBuffer.get_range
      rw [if_neg (by omega)]
      rw [take_drop_eq_bufBytes b (start + 1) l.length (by omega), hlab]
    rw [hrange]
    dsimp only
    have hihs := ih f b (start + 1 + l.length) jumps jumped [46]
      (acc ++ delim ++ l.map BytePacketBuffer.lowerByte)
      ⟨fun l' h' => hok l' (List.mem_cons_of_mem _ h'), by omega, hblen, htail⟩
      (by simp only [List.length_cons] at hfuel; omega) hj hb
    rw [hihs]
    rw [← appendName_cons]
    have hposs : start + 1 + l.length + (labelsWire rest).length =
        start + (labelsWire (l :: rest)).length := by rw [hwlen]; omega
    rw [hposs]

/-- Each label accounts for at least its length byte in the wire. -/
theorem wireLabels_length_ge (ls : List (List Nat)) :
    ls.length ≤ (wireLabels ls).length := by
  induction ls with
  | nil => simp [wireLabels]
  | cons l rest ih =>
    rw [wireLabels_cons_length]
    simp only [List.length_cons]
    omega

/-- `bufBytes` depends only on the byte array, not the cursor. -/
theorem bufBytes_congr (b1 b2 : BytePacketBuffer) (h : b1.buffer = b2.buffer) :
    ∀ (s n : Nat), bufBytes b1 s n = bufBytes b2 s n := by
  intro s n
  induction n generalizing s with
  | zero => rfl
  | succ n ih => simp [bufBytes, h, ih]

/-- `read_qname` on a buffer whose cursor sits on a well-formed uncompressed
name: success, decoded labels, cursor one past the terminator. -/
theorem read_qname_of_wf (b : BytePacketBuffer) (ls : List (List Nat))
    (h : wfNameAt b b.position ls) :
    b.read_qname = .ok (decodedName ls, b.seek (b.position + (labelsWire ls).length)) := by
  have hlw := labelsWire_length ls
  have hge := wireLabels_length_ge ls
  have hble : b.position < 512 := by
    obtain ⟨_, hle, _, _⟩ := h
    omega
  have hfuel : ls.length < 4096 := by
    obtain ⟨_, hle, _, _⟩ := h
    omega
  have hrun := read_loop_wf ls 4096 b b.position 0 false [] [] h hfuel (by omega) hble
  unfold BytePacketBuffer.read_qname
  rw [hrun, appendName_empty]
  simp

/-- One pointer step: reading at `P` where bytes `P`, `P+1` encode a pointer
to a well-formed name at `N` succeeds with the same decoded string as
reading at `N`, and leaves the cursor at `P + 2`. -/
theorem read_qname_pointer (b : BytePacketBuffer) (ls : List (List Nat))
    (N P : Nat) (hwf : wfNameAt b N ls)
    (hp1 : b.buffer.getD P 0 = 192 ||| (N >>> 8))
    (hp2 : b.buffer.getD (P + 1) 0 = N % 256)
    (hP : P + 2 < 512) :
    (b.seek P).read_qname = .ok (decodedName ls, b.seek (P + 2)) := by
  obtain ⟨hok, hle, hblen, hbytes⟩ := hwf
  have hlw := labelsWire_length ls
  have hge := wireLabels_length_ge ls
  have hN : N < 512 := by omega
  have hhi : N >>> 8 < 2 := by rw [shr8_eq_div]; omega
  show BytePacketBuffer.read_qname_loop 4096 (b.seek P) P 0 false [] [] = _
  obtain ⟨f, hf⟩ : ∃ f : Nat, f = 4095 := ⟨4095, rfl⟩
  rw [show (4096 : Nat) = f + 1 by omega]
  simp only [BytePacketBuffer.read_qname_loop]
  rw [if_neg (by omega)]
  have hget1 : (b.seek P).get P = .ok (192 ||| (N >>> 8)) := by
    unfold BytePacketBuffer.get BytePacketBuffer.seek
    rw [if_neg (by simp; omega), if_pos (by omega)]
    exact congrArg RRes.ok hp1
  rw [hget1]
  dsimp only
  rw [if_pos ((pointer_byte_facts (N >>> 8) hhi).1)]
  simp only [if_neg Bool.false_ne_true]
  have hget2 : ((b.seek P).seek (P + 2)).get (P + 1) = .ok (N % 256) := by
    unfold BytePacketBuffer.get BytePacketBuffer.seek
    rw [if_neg (by simp; omega), if_pos (by omega)]
    exact congrArg RRes.ok hp2
  rw [hget2]
  dsimp only
  rw [(pointer_byte_facts (N >>> 8) hhi).2, pointer_recompose N hN]
  have hwf2 : wfNameAt (b.seek (P + 2)) N ls :=
    ⟨hok, hle, hblen, by rw [bufBytes_congr (b.seek (P + 2)) b rfl]; exact hbytes⟩
  have hrun := read_loop_wf ls f (b.seek (P + 2)) N 1 true [] [] hwf2
    (by omega) (by omega) (show P + 2 < 512 from hP)
  rw [show ((b.seek P).seek (P + 2)) = b.seek (P + 2) from rfl, hrun, appendName_empty]
  simp

/-- Bytes read back after the two `set`s of a `set_u16`. -/
theorem storedU16_set2 {d : List Nat} {s hi lo : Nat} (h : s + 1 < d.length) :
    storedU16 ((d.set s hi).set (s + 1) lo) s = hi * 256 + lo := by
  unfold storedU16
  have g1 : ((d.set s hi).set (s + 1) lo).getD s 0 = hi := by
    rw [List.getD_eq_getElem?_getD, List.getElem?_set_ne (by omega),
      List.getElem?_set_self (by omega)]
    rfl
  have g2 : ((d.set s hi).set (s + 1) lo).getD (s + 1) 0 = lo := by
    rw [List.getD_eq_getElem?_getD, List.getElem?_set_self (by simp; omega)]
    rfl
  rw [g1, g2]

/-- The rdlength back-patch: after the placeholder `write_u16 0` at the slot
and any rdata suffix that only advanced the cursor (to at most 512), the
`set_u16` of `cursor - slot - 2` succeeds and stores exactly that count. -/
theorem var_patch {b1 b2 brd bfin : BytePacketBuffer} {v : Nat}
    (hlen1 : b1.buffer.length = 512)
    (h2 : b1.write_u16 0 = .ok b2)
    (hpos : b2.position ≤ brd.position)
    (hle : brd.position ≤ 512)
    (hblen : brd.buffer.length = b1.buffer.length)
    (hv : v = (brd.position - b2.position) % 65536)
    (hset : brd.set_u16 b1.position v = .ok bfin) :
    bfin.position = brd.position ∧ b1.position + 2 ≤ bfin.position ∧
      storedU16 bfin.buffer b1.position = bfin.position - b1.position - 2 := by
  obtain ⟨hp1, hp2pos, hbuf2, hlen2⟩ := write_u16_ok h2
  obtain ⟨hfpos, hfbuf⟩ := set_u16_ok (by omega) hset
  have hv2 : v = brd.position - b1.position - 2 := by
    rw [hv, Nat.mod_eq_of_lt (by omega)]
    omega
  refine ⟨hfpos, by omega, ?_⟩
  rw [hfbuf, storedU16_set2 (by omega)]
  rw [hfpos, hv2, shr8_eq_div, and255_eq_mod]
  omega

/-- Tail of the NS/PTR/TXT-shaped arms: preamble, placeholder, one rdata
operation, back-patch with `cursor - rdata_start`. -/
theorem arm_var_rdata {b bfin : BytePacketBuffer} {n : Nat} {d : List Nat}
    {tnum c t : Nat} {rdata : BytePacketBuffer → RRes BytePacketBuffer}
    (hrdS : StepOk rdata)
    (hlen : b.buffer.length = 512)
    (h : RRes.bind (writePreamble b d tnum c t) (fun b1 =>
          RRes.bind (b1.write_u16 0) (fun b2 =>
            RRes.bind (rdata b2) (fun b3 =>
              RRes.bind (b3.set_u16 b1.pos ((b3.pos - b2.pos) % 65536)) (fun b4 =>
                pure (b4.pos - b.pos, b4))))) = .ok (n, bfin)) :
    ∃ s, (match writePreamble b d tnum c t with
          | .ok b1 => some b1.position
          | _ => none) = some s ∧
      s + 2 ≤ bfin.position ∧ storedU16 bfin.buffer s = bfin.position - s - 2 := by
  rw [RRes.bind_eq_ok] at h
  obtain ⟨b1, hpre, h⟩ := h
  try dsimp only at h
  rw [RRes.bind_eq_ok] at h
  obtain ⟨b2, h2, h⟩ := h
  try dsimp only at h
  rw [RRes.bind_eq_ok] at h
  obtain ⟨b3, hrd, h⟩ := h
  try dsimp only at h
  rw [RRes.bind_eq_ok] at h
  obtain ⟨b4, hset, h⟩ := h
  try dsimp only at h
  simp only [RRes.monadPure_eq, RRes.ok.injEq, Prod.mk.injEq] at h
  obtain ⟨hn, hbf⟩ := h
  subst hbf
  obtain ⟨hpreP, hpreL, hpreB, hpreD⟩ := stepOk_writePreamble d tnum c t b b1 hpre
  obtain ⟨hp1, hp2pos, hbuf2, hlen2⟩ := write_u16_ok h2
  obtain ⟨hrdP, hrdL, hrdB, hrdD⟩ := hrdS b2 b3 hrd
  have hpatch := var_patch (v := (b3.pos - b2.pos) % 65536)
    (by rw [hpreL, hlen]) h2 hrdP (hrdB (by omega)) (by rw [hrdL, hlen2]) rfl hset
  exact ⟨b1.position, by rw [hpre], hpatch.2.1, hpatch.2.2⟩

/-- `writeSOArdata` is a cursor-append operation. -/
theorem stepOk_writeSOArdata (mname rname : List Nat)
    (serial refresh retry expire minimum : Nat) :
    StepOk (fun b => writeSOArdata b mname rname serial refresh retry expire minimum) :=
  StepOk.bind (stepOk_write_qname _)
    (StepOk.bind (stepOk_write_qname _)
      (StepOk.bind (stepOk_write_u32 _)
        (StepOk.bind (stepOk_write_u32 _)
          (StepOk.bind (stepOk_write_u32 _)
            (StepOk.bind (stepOk_write_u32 _) (stepOk_write_u32 _))))))

/-- `writeMXrdata` is a cursor-append operation. -/
theorem stepOk_writeMXrdata (priority : Nat) (host : List Nat) :
    StepOk (fun b => writeMXrdata b priority host) :=
  StepOk.bind (stepOk_write_u16 _) (stepOk_write_qname _)

/-- `writeAAAArdata` is a cursor-append operation. -/
theorem stepOk_writeAAAArdata (addr : Ipv6Addr) :
    StepOk (fun b => writeAAAArdata b addr) :=
  StepOk.bind (stepOk_write_u16 _)
    (StepOk.bind (stepOk_write_u16 _)
      (StepOk.bind (stepOk_write_u16 _)
        (StepOk.bind (stepOk_write_u16 _)
          (StepOk.bind (stepOk_write_u16 _)
            (StepOk.bind (stepOk_write_u16 _)
              (StepOk.bind (stepOk_write_u16 _) (stepOk_write_u16 _)))))))

/-- `writeAAAArdata` advances the cursor by exactly 16 bytes. -/
theorem writeAAAArdata_pos {b b' : BytePacketBuffer} {addr : Ipv6Addr}
    (h : writeAAAArdata b addr = .ok b') : b'.position = b.position + 16 := by
  have h' : RRes.bind (b.write_u16 addr.g0) (fun b1 =>
      RRes.bind (b1.write_u16 addr.g1) (fun b2 =>
        RRes.bind (b2.write_u16 addr.g2) (fun b3 =>
          RRes.bind (b3.write_u16 addr.g3) (fun b4 =>
            RRes.bind (b4.write_u16 addr.g4) (fun b5 =>
              RRes.bind (b5.write_u16 addr.g5) (fun b6 =>
                RRes.bind (b6.write_u16 addr.g6) (fun b7 =>
                  b7.write_u16 addr.g7))))))) = .ok b' := h
  rw [RRes.bind_eq_ok] at h'
  obtain ⟨c1, e1, h'⟩ := h'
  rw [RRes.bind_eq_ok] at h'
  obtain ⟨c2, e2, h'⟩ := h'
  rw [RRes.bind_eq_ok] at h'
  obtain ⟨c3, e3, h'⟩ := h'
  rw [RRes.bind_eq_ok] at h'
  obtain ⟨c4, e4, h'⟩ := h'
  rw [RRes.bind_eq_ok] at h'
  obtain ⟨c5, e5, h'⟩ := h'
  rw [RRes.bind_eq_ok] at h'
  obtain ⟨c6, e6, h'⟩ := h'
  rw [RRes.bind_eq_ok] at h'
  obtain ⟨c7, e7, h'⟩ := h'
  have p1 := (write_u16_ok e1).2.1
  have p2 := (write_u16_ok e2).2.1
  have p3 := (write_u16_ok e3).2.1
  have p4 := (write_u16_ok e4).2.1
  have p5 := (write_u16_ok e5).2.1
  have p6 := (write_u16_ok e6).2.1
  have p7 := (write_u16_ok e7).2.1
  have p8 := (write_u16_ok h').2.1
  omega

/-- The two stored rdlength bytes survive later cursor-append writes. -/
theorem storedU16_preserved {b2 b3 : BytePacketBuffer} (s : Nat)
    (hpre : ∀ i, i < b2.position → b3.buffer.getD i 0 = b2.buffer.getD i 0)
    (hs : s + 1 < b2.position) :
    storedU16 b3.buffer s = storedU16 b2.buffer s := by
  unfold storedU16
  rw [hpre s (by omega), hpre (s + 1) (by omega)]

/-- Tail of the CNAME/MX-shaped arms: the patch value is written as
`cursor - (slot + 2)` instead of `cursor - rdata_start`. -/
theorem arm_var_rdata2 {b bfin : BytePacketBuffer} {n : Nat} {d : List Nat}
    {tnum c t : Nat} {rdata : BytePacketBuffer → RRes BytePacketBuffer}
    (hrdS : StepOk rdata)
    (hlen : b.buffer.length = 512)
    (h : RRes.bind (writePreamble b d tnum c t) (fun b1 =>
          RRes.bind (b1.write_u16 0) (fun b2 =>
            RRes.bind (rdata b2) (fun b3 =>
              RRes.bind (b3.set_u16 b1.pos ((b3.pos - (b1.pos + 2)) % 65536)) (fun b4 =>
                pure (b4.pos - b.pos, b4))))) = .ok (n, bfin)) :
    ∃ s, (match writePreamble b d tnum c t with
          | .ok b1 => some b1.position
          | _ => none) = some s ∧
      s + 2 ≤ bfin.position ∧ storedU16 bfin.buffer s = bfin.position - s - 2 := by
  rw [RRes.bind_eq_ok] at h
  obtain ⟨b1, hpre, h⟩ := h
  try dsimp only at h
  rw [RRes.bind_eq_ok] at h
  obtain ⟨b2, h2, h⟩ := h
  try dsimp only at h
  rw [RRes.bind_eq_ok] at h
  obtain ⟨b3, hrd, h⟩ := h
  try dsimp only at h
  rw [RRes.bind_eq_ok] at h
  obtain ⟨b4, hset, h⟩ := h
  try dsimp only at h
  simp only [RRes.monadPure_eq, RRes.ok.injEq, Prod.mk.injEq] at h
  obtain ⟨hn, hbf⟩ := h
  subst hbf
  obtain ⟨hpreP, hpreL, hpreB, hpreD⟩ := stepOk_writePreamble d tnum c t b b1 hpre
  obtain ⟨hp1, hp2pos, hbuf2, hlen2⟩ := write_u16_ok h2
  obtain ⟨hrdP, hrdL, hrdB, hrdD⟩ := hrdS b2 b3 hrd
  have hv : (b3.pos - (b1.pos + 2)) % 65536 = (b3.position - b2.position) % 65536 := by
    show (b3.position - (b1.position + 2)) % 65536 = (b3.position - b2.position) % 65536
    rw [hp2pos]
  rw [hv] at hset
  have hpatch := var_patch (v := (b3.position - b2.position) % 65536)
    (by rw [hpreL, hlen]) h2 hrdP (hrdB (by omega)) (by rw [hrdL, hlen2]) rfl hset
  exact ⟨b1.position, by rw [hpre], hpatch.2.1, hpatch.2.2⟩

/-- Tail of the A/UNKNOWN-shaped arms: the rdata byte count is written
up-front (`len as u16`) and the bytes follow. -/
theorem arm_fixed_bytes {b bfin : BytePacketBuffer} {n : Nat} {d data : List Nat}
    {tnum c t : Nat}
    (hlen : b.buffer.length = 512)
    (h : RRes.bind (writePreamble b d tnum c t) (fun b1 =>
          RRes.bind (b1.write_u16 (data.length % 65536)) (fun b2 =>
            RRes.bind (BytePacketBuffer.writeBytes b2 data) (fun b3 =>
              pure (b3.pos - b.pos, b3)))) = .ok (n, bfin)) :
    ∃ s, (match writePreamble b d tnum c t with
          | .ok b1 => some b1.position
          | _ => none) = some s ∧
      s + 2 ≤ bfin.position ∧ storedU16 bfin.buffer s = bfin.position - s - 2 := by
  rw [RRes.bind_eq_ok] at h
  obtain ⟨b1, hpre, h⟩ := h
  try dsimp only at h
  rw [RRes.bind_eq_ok] at h
  obtain ⟨b2, h2, h⟩ := h
  try dsimp only at h
  rw [RRes.bind_eq_ok] at h
  obtain ⟨b3, hwb, h⟩ := h
  try dsimp only at h
  simp only [RRes.monadPure_eq, RRes.ok.injEq, Prod.mk.injEq] at h
  obtain ⟨hn, hbf⟩ := h
  subst hbf
  obtain ⟨hpreP, hpreL, hpreB, hpreD⟩ := stepOk_writePreamble d tnum c t b b1 hpre
  obtain ⟨hp1, hp2pos, hbuf2, hlen2⟩ := write_u16_ok h2
  obtain ⟨hwbP, hwbL, hwbB, hwbD⟩ := stepOk_writeBytes data b2 b3 hwb
  have hpos3 := writeBytes_ok_pos hwb
  have h512 : b3.position ≤ 512 := hwbB (by omega)
  have hdlen : data.length ≤ 512 := by omega
  refine ⟨b1.position, by rw [hpre], by omega, ?_⟩
  rw [storedU16_preserved b1.position hwbD (by omega)]
  rw [hbuf2, storedU16_set2 (by rw [hp2pos] at hpos3; omega)]
  rw [shr8_eq_div, and255_eq_mod]
  omega

/-- Tail of the AAAA-shaped arm: rdlength 16 written up-front, rdata
advances the cursor by exactly 16. -/
theorem arm_fixed16 {b bfin : BytePacketBuffer} {n : Nat} {d : List Nat}
    {tnum c t : Nat} {rdata : BytePacketBuffer → RRes BytePacketBuffer}
    (hrdS : StepOk rdata)
    (hrdpos : ∀ x y, rdata x = .ok y → y.position = x.position + 16)
    (hlen : b.buffer.length = 512)
    (h : RRes.bind (writePreamble b d tnum c t) (fun b1 =>
          RRes.bind (b1.write_u16 16) (fun b2 =>
            RRes.bind (rdata b2) (fun b3 =>
              pure (b3.pos - b.pos, b3)))) = .ok (n, bfin)) :
    ∃ s, (match writePreamble b d tnum c t with
          | .ok b1 => some b1.position
          | _ => none) = some s ∧
      s + 2 ≤ bfin.position ∧ storedU16 bfin.buffer s = bfin.position - s - 2 := by
  rw [RRes.bind_eq_ok] at h
  obtain ⟨b1, hpre, h⟩ := h
  try dsimp only at h
  rw [RRes.bind_eq_ok] at h
  obtain ⟨b2, h2, h⟩ := h
  try dsimp only at h
  rw [RRes.bind_eq_ok] at h
  obtain ⟨b3, hrd, h⟩ := h
  try dsimp only at h
  simp only [RRes.monadPure_eq, RRes.ok.injEq, Prod.mk.injEq] at h
  obtain ⟨hn, hbf⟩ := h
  subst hbf
  obtain ⟨hpreP, hpreL, hpreB, hpreD⟩ := stepOk_writePreamble d tnum c t b b1 hpre
  obtain ⟨hp1, hp2pos, hbuf2, hlen2⟩ := write_u16_ok h2
  obtain ⟨hrdP, hrdL, hrdB, hrdD⟩ := hrdS b2 b3 hrd
  have hpos3 := hrdpos b2 b3 hrd
  refine ⟨b1.position, by rw [hpre], by omega, ?_⟩
  rw [storedU16_preserved b1.position hrdD (by omega)]
  rw [hbuf2, storedU16_set2 (by rw [hp2pos] at hpos3; omega)]
  rw [shr8_eq_div, and255_eq_mod]
  omega

/-- C2: for every record of every variant that `DnsRecord::write` encodes
successfully into a 512-byte buffer, the big-endian u16 stored at the
record's rdlength slot (the cursor position right after the preamble)
equals the number of rdata bytes emitted after that slot — the final cursor
minus the slot minus 2.  For the variable-length variants the slot is
back-patched to `cursor - slot - 2`; for A the stored value is 4, for AAAA
16, for UNKNOWN the stored data length. -/
theorem c2_rdlength_correct (r : DnsRecord) (b : BytePacketBuffer)
    (hlen : b.buffer.length = 512) (n : Nat) (bfin : BytePacketBuffer)
    (h : r.write b = .ok (n, bfin)) :
    ∃ s, rdlengthSlot r b = some s ∧ s + 2 ≤ bfin.position ∧
      storedU16 bfin.buffer s = bfin.position - s - 2 := by
  cases r with
  | UNKNOWN domain qtype class_ ttl data => exact arm_fixed_bytes hlen h
  | A domain class_ ttl addr => exact arm_fixed_bytes hlen h
  | NS domain class_ host ttl => exact arm_var_rdata (stepOk_write_qname host) hlen h
  | CNAME domain class_ host ttl => exact arm_var_rdata2 (stepOk_write_qname host) hlen h
  | MX domain priority class_ host ttl =>
    exact arm_var_rdata2 (stepOk_writeMXrdata priority host) hlen h
  | TXT domain class_ ttl data => exact arm_var_rdata (stepOk_writeTxts data) hlen h
  | SOA domain class_ ttl mname rname serial refresh retry expire minimum =>
    exact arm_var_rdata
      (stepOk_writeSOArdata mname rname serial refresh retry expire minimum) hlen h
  | PTR domain class_ host ttl => exact arm_var_rdata (stepOk_write_qname host) hlen h
  | AAAA domain addr class_ ttl =>
    exact arm_fixed16 (stepOk_writeAAAArdata addr)
      (fun _ _ hh => writeAAAArdata_pos hh) hlen h

set_option maxRecDepth 100000 in
/-- Witness for C2 at a concrete A record on a fresh buffer. -/
theorem c2_rdlength_correct_witness :
    ∃ s, rdlengthSlot recA0 freshBuf = some s ∧
      s + 2 ≤ (resultBuf (recA0.write freshBuf)).position ∧
      storedU16 (resultBuf (recA0.write freshBuf)).buffer s =
        (resultBuf (recA0.write freshBuf)).position - s - 2 :=
  c2_rdlength_correct recA0 freshBuf (by decide)
    (resultSize (recA0.write freshBuf))
    (resultBuf (recA0.write freshBuf)) (by decide)

set_option maxRecDepth 100000 in
/-- C1 (divergence): the position-taking buffer accessors are NOT
bounds-checked on `pos`.  `get(600)` on a fresh buffer passes its
cursor-based check and indexes the 512-byte array out of range (a panic,
not a `BufferOverflow` error); `set(512, v)` and the second byte of
`patch_u16(511, v)` likewise panic; and an in-range `get(0)` is spuriously
rejected once the cursor is at 512, because `get` checks the cursor instead
of `pos`. -/
theorem c1_bounds_divergence :
    freshBuf.get 600 = .panicked ∧
    freshBuf.set 512 7 = .panicked ∧
    freshBuf.set_u16 511 0xABCD = .panicked ∧
    (freshBuf.seek 512).get 0 = .err .endOfBuffer := by decide

set_option maxRecDepth 100000 in
/-- C3 (counterexample): encoding the S1 header does NOT emit the bytes
`AB CD 87 F6 00 03 00 02 00 01 00 04` claimed by the spec — the two flag
bytes differ. -/
theorem c3_counterexample :
    ¬ (bufBytes (bufOf (hdrS1.write freshBuf)) 0 12 =
        [0xAB, 0xCD, 0x87, 0xF6, 0x00, 0x03, 0x00, 0x02, 0x00, 0x01, 0x00, 0x04]) := by
  decide

set_option maxRecDepth 100000 in
/-- C3 (amended): encoding the header with id=0xABCD, all flags set,
opcode=2, rcode=SERVFAIL, counts (3,2,1,4) emits exactly the 12 bytes
`AB CD 97 F2 00 03 00 02 00 01 00 04` (opcode 2 contributes 0x10 to flag
byte A and SERVFAIL=2 makes flag byte B 0xF2), and decoding those bytes
yields the same header back. -/
theorem c3_header_bytes :
    bufBytes (bufOf (hdrS1.write freshBuf)) 0 12 =
      [0xAB, 0xCD, 0x97, 0xF2, 0x00, 0x03, 0x00, 0x02, 0x00, 0x01, 0x00, 0x04] ∧
    (bufOf (hdrS1.write freshBuf)).position = 12 ∧
    DnsHeader.read DnsHeader.new ((bufOf (hdrS1.write freshBuf)).seek 0) =
      .ok (hdrS1, (bufOf (hdrS1.write freshBuf)).seek 12) := by decide

set_option maxRecDepth 100000 in
/-- C4 (counterexample): a slice whose requested range ends exactly at
offset 512 (`pos + len = 512`) FAILS — `get_range` rejects `start + end ≥
512` — where the claim says it succeeds. -/
theorem c4_counterexample : freshBuf.get_range 511 1 = .err .endOfBuffer := by
  decide

/-- C4 (amended): `get_range(pos, len)` succeeds returning the `len` bytes
starting at `pos` exactly when `pos + len < 512`, and fails with the
end-of-buffer error when `pos + len ≥ 512` (so a range ending exactly at
offset 512 fails). -/
theorem c4_get_range_spec (b : BytePacketBuffer) (p len : Nat)
    (hlen : b.buffer.length = 512) :
    b.get_range p len =
      if 512 ≤ p + len then .err .endOfBuffer else .ok (bufBytes b p len) := by
  unfold BytePacketBuffer.get_range
  split
  · rfl
  · rename_i hc
    rw [take_drop_eq_bufBytes b p len (by omega)]

set_option maxRecDepth 100000 in
/-- Witness for C4 at a concrete in-range slice. -/
theorem c4_get_range_spec_witness :
    freshBuf.get_range 1 2 =
      if 512 ≤ 1 + 2 then .err .endOfBuffer else .ok (bufBytes freshBuf 1 2) :=
  c4_get_range_spec freshBuf 1 2 (by decide)

set_option maxRecDepth 100000 in
/-- C5: the qname decoder counts jumps and fails with the jump-limit error
as soon as the counter exceeds 5 (`jumps_performed > max_jumps` is checked
at the top of every iteration); in particular a buffer whose bytes 0-1 are
`C0 00` — a pointer to itself — makes `read_qname` at cursor 0 return the
jump-limit error rather than loop or succeed. -/
theorem c5_jump_limit :
    (∀ (fuel : Nat) (b : BytePacketBuffer) (p jumps : Nat) (jumped : Bool)
      (delim acc : List Nat), 5 < jumps →
        BytePacketBuffer.read_qname_loop (fuel + 1) b p jumps jumped delim acc =
          .err .jumpLimit) ∧
    ptrSelfBuf.read_qname = .err .jumpLimit := by
  constructor
  · intro fuel b p jumps jumped delim acc hj
    simp only [BytePacketBuffer.read_qname_loop]
    rw [if_pos hj]
  · decide

/-- Witness for C5's universally-quantified part at a concrete state. -/
theorem c5_jump_limit_witness :
    BytePacketBuffer.read_qname_loop (0 + 1) freshBuf 0 6 false [] [] =
      .err .jumpLimit :=
  c5_jump_limit.1 0 freshBuf 0 6 false [] [] (by decide)

/-- C6 (amended): given a well-formed uncompressed name at offset `N` and,
at offset `P` with `P + 2 < 512`, the 2-byte `0xC0`-prefixed pointer
encoding of `N`, `read_qname` started at `P` and at `N` decode the same
string; the run from `P` leaves the cursor at `P + 2` and the run from `N`
leaves it one past the terminator.  (The bound `P + 2 < 512` is required
because `get` validates the already-advanced cursor after the jump.) -/
theorem c6_pointer_equiv (b : BytePacketBuffer) (ls : List (List Nat)) (N P : Nat)
    (hwf : wfNameAt b N ls)
    (hp1 : b.buffer.getD P 0 = 192 ||| (N >>> 8))
    (hp2 : b.buffer.getD (P + 1) 0 = N % 256)
    (hP : P + 2 < 512) :
    (b.seek P).read_qname = .ok (decodedName ls, b.seek (P + 2)) ∧
    (b.seek N).read_qname =
      .ok (decodedName ls, b.seek (N + (labelsWire ls).length)) := by
  constructor
  · exact read_qname_pointer b ls N P hwf hp1 hp2 hP
  · have hwf' : wfNameAt (b.seek N) (b.seek N).position ls := by
      obtain ⟨hok, hle, hblen, hbytes⟩ := hwf
      exact ⟨hok, hle, hblen, by rw [bufBytes_congr (b.seek N) b rfl]; exact hbytes⟩
    exact read_qname_of_wf (b.seek N) ls hwf'

set_option maxRecDepth 100000 in
/-- Witness for C6: name `ab` at offset 0, pointer at offset 4. -/
theorem c6_pointer_equiv_witness :
    (c6Buf.seek 4).read_qname = .ok (decodedName [[97, 98]], c6Buf.seek (4 + 2)) ∧
    (c6Buf.seek 0).read_qname =
      .ok (decodedName [[97, 98]], c6Buf.seek (0 + (labelsWire [[97, 98]]).length)) :=
  c6_pointer_equiv c6Buf [[97, 98]] 0 4 (by decide) (by decide) (by decide) (by decide)

set_option maxRecDepth 100000 in
/-- C6 (counterexample): with the pointer at offset 510 (`P + 2 = 512`),
the buffer does contain a well-formed name at 0 and a pointer at `P`
targeting it, yet decoding at `P` fails with the end-of-buffer error
instead of succeeding as the claim states — after the jump seeks the
cursor to 512, `get`'s cursor-based check rejects every read. -/
theorem c6_counterexample :
    wfNameAt c6CexBuf 0 [[97]] ∧
    c6CexBuf.buffer.getD 510 0 = 192 ||| (0 >>> 8) ∧
    c6CexBuf.buffer.getD 511 0 = 0 % 256 ∧
    c6CexBuf.position = 510 ∧
    c6CexBuf.read_qname = .err .endOfBuffer := by decide

/-- C7 (amended): `write_qname` splits on '.' and emits, for EVERY label —
empty labels included — a length byte followed by that label's bytes,
then terminates with a zero byte; a label over 63 bytes fails with the
label-length error.  (The claim's "non-empty label only" rule is what the
code does not do.) -/
theorem c7_write_qname_spec (d : List Nat) (b : BytePacketBuffer)
    (hfit : b.position + (labelsWire (d.splitOn 46)).length ≤ 512) :
    ((∀ l ∈ d.splitOn 46, l.length ≤ 63) →
      b.write_qname d = .ok (appendBytes b (labelsWire (d.splitOn 46)))) ∧
    ((∃ l ∈ d.splitOn 46, 63 < l.length) →
      b.write_qname d = .err .labelTooLong) :=
  ⟨fun h63 => write_qname_ok d h63 hfit, fun hlong => write_qname_err d hfit hlong⟩

set_option maxRecDepth 100000 in
/-- Witness for C7 at the domain `a.b`. -/
theorem c7_write_qname_spec_witness :
    BytePacketBuffer.write_qname freshBuf [97, 46, 98] =
      .ok (appendBytes freshBuf (labelsWire (([97, 46, 98] : List Nat).splitOn 46))) :=
  (c7_write_qname_spec [97, 46, 98] freshBuf (by decide)).1 (by decide)

set_option maxRecDepth 100000 in
/-- C7 (counterexample): encoding the empty string (the DNS root) emits TWO
zero bytes — a length byte for the one empty label produced by the split,
then the terminator — leaving the cursor at 2, not the single zero byte the
claim states. -/
theorem c7_counterexample :
    freshBuf.write_qname [] = .ok (appendBytes freshBuf [0, 0]) ∧
    (appendBytes freshBuf [0, 0]).position = 2 := by decide

/-- C8: `DnsPacket::write` overwrites the four header counts with the list
lengths before any byte is emitted — the mutated packet component is the
same whatever the buffer is, and its counts equal the list lengths whether
or not the caller pre-populated them. -/
theorem c8_counts (p : DnsPacket) (b : BytePacketBuffer)
    (hq : p.questions.length < 65536) (ha : p.answers.length < 65536)
    (hau : p.authorities.length < 65536) (hr : p.resources.length < 65536) :
    (p.write b).1.header.questions = p.questions.length ∧
    (p.write b).1.header.answers = p.answers.length ∧
    (p.write b).1.header.authoritative_entries = p.authorities.length ∧
    (p.write b).1.header.resource_entries = p.resources.length ∧
    ∀ b2 : BytePacketBuffer, (p.write b2).1 = (p.write b).1 := by
  refine ⟨?_, ?_, ?_, ?_, fun b2 => rfl⟩ <;> simp [DnsPacket.write] <;> omega

set_option maxRecDepth 100000 in
/-- Witness for C8 at a packet with stale pre-populated counts. -/
theorem c8_counts_witness :
    (pkt0.write freshBuf).1.header.questions = pkt0.questions.length ∧
    (pkt0.write freshBuf).1.header.answers = pkt0.answers.length ∧
    (pkt0.write freshBuf).1.header.authoritative_entries = pkt0.authorities.length ∧
    (pkt0.write freshBuf).1.header.resource_entries = pkt0.resources.length ∧
    ∀ b2 : BytePacketBuffer, (pkt0.write b2).1 = (pkt0.write freshBuf).1 :=
  c8_counts pkt0 freshBuf (by decide) (by decide) (by decide) (by decide)

/-- C9: `QueryType` conversion is total and round-trippable on all u16
values — `from_num` is a total function and `to_num (from_num n) = n`,
unrecognized codes passing through `UNKNOWN(n)`. -/
theorem c9_qtype_roundtrip (n : Nat) (hn : n < 65536) :
    QueryType.to_num (QueryType.from_num n) = n := by
  unfold QueryType.from_num
  split <;> rfl

/-- Witness for C9 at the unassigned code 9999. -/
theorem c9_qtype_roundtrip_witness :
    QueryType.to_num (QueryType.from_num 9999) = 9999 :=
  c9_qtype_roundtrip 9999 (by decide)

/-- C10: when the cursor of a buffer sits on a well-formed uncompressed
name (no compression pointer), `read_qname` succeeds and leaves the cursor
exactly one byte past the name's terminating zero byte — start plus the
encoded length of the name. -/
theorem c10_read_qname_cursor (b : BytePacketBuffer) (ls : List (List Nat))
    (h : wfNameAt b b.position ls) :
    b.read_qname =
      .ok (decodedName ls, b.seek (b.position + (labelsWire ls).length)) :=
  read_qname_of_wf b ls h

set_option maxRecDepth 100000 in
/-- Witness for C10 at the name `a.b` stored at offset 0. -/
theorem c10_read_qname_cursor_witness :
    nameBuf.read_qname = .ok (decodedName [[97], [98]],
      nameBuf.seek (nameBuf.position + (labelsWire [[97], [98]]).length)) :=
  c10_read_qname_cursor nameBuf [[97], [98]] (by decide)
